import Mathlib

/-!
Shallow embedding of the `novellama` backend (session-scoped translation
assistant).  The definitions below are translated from the Python sources:

  * `novellama/utils/tokenizer.py`   — token counting with fallback encoding
  * `novellama/models/translation_context.py` — session context and the
    context-size management policy
  * `novellama/storage.py`           — persisted session records
  * `novellama/api/translation_api.py` and `novellama/app.py` — the translate
    flow and the prompt/reference update handlers

External effects (the tiktoken encoding registry, the JSON parser, the HTTP
completion call) are passed in as explicit function parameters; everything
else follows the source line by line.
-/

namespace Novellama

/-! ### Token counter (`utils/tokenizer.py`) -/

/-- Embedding of `get_token_count`.  `encoding_for_model` models
`tiktoken.encoding_for_model` (`none` = the `KeyError` case for an
unregistered model identifier), `default_encoding` models
`tiktoken.get_encoding "o200k_base"`, and `env_model` models the
`MODEL_NAME` environment default used when `model_name is None`. -/
def get_token_count (encoding_for_model : String → Option (String → Nat))
    (default_encoding : String → Nat) (env_model : String)
    (text : String) (model_name : Option String) : Nat :=
  let m := match model_name with
    | none => env_model
    | some n => n
  match encoding_for_model m with
  | some enc => enc text
  | none => default_encoding text

/-! ### Session context (`models/translation_context.py`) -/

/-- One history entry: the Python dict with keys source and translation. -/
structure HistoryEntry where
  source : String
  translation : String
deriving DecidableEq

/-- Embedding of the `TranslationContext` object's fields.  `max_messages`
and `max_tokens` come from the environment at construction time
(`MAX_CONTEXT_MESSAGES`, `MAX_TOKENS`). -/
structure TranslationContext where
  messages : List HistoryEntry
  max_messages : Nat
  max_tokens : Nat
  system_prompt : String
  references : List String
deriving DecidableEq

/-- Embedding of `TranslationContext.__init__` with the environment values
`mm = MAX_CONTEXT_MESSAGES`, `mt = MAX_TOKENS`. -/
def TranslationContext.new (mm mt : Nat) : TranslationContext :=
  { messages := [], max_messages := mm, max_tokens := mt,
    system_prompt := "", references := [] }

/-- Embedding of `set_system_prompt`. -/
def set_system_prompt (prompt : String) (ctx : TranslationContext) :
    TranslationContext :=
  { ctx with system_prompt := prompt }

/-- Embedding of `add_reference`. -/
def add_reference (reference : String) (ctx : TranslationContext) :
    TranslationContext :=
  { ctx with references := ctx.references ++ [reference] }

/-- Embedding of `clear_references`. -/
def clear_references (ctx : TranslationContext) : TranslationContext :=
  { ctx with references := [] }

/-- The default translator instruction used when `system_prompt` is empty
(the right operand of the Python `or` in `_build_system_message`). -/
def default_system_prompt : String :=
  "You are a professional translator. Translate the given text into the target language."

/-- Embedding of `_build_system_message`: the Python `or` on a string tests
emptiness, and the reference loop folds `enumerate(self.references, 1)`
accumulating each f-string block onto the content. -/
def build_system_message (ctx : TranslationContext) : String :=
  let base :=
    if ctx.system_prompt = "" then default_system_prompt else ctx.system_prompt
  if ctx.references = [] then base
  else
    (List.enumFrom 1 ctx.references).foldl
      (fun acc p =>
        acc ++ ("\n--- Reference " ++ toString p.1 ++ " ---\n" ++ p.2 ++ "\n"))
      (base ++ "\n\nReference materials:\n")

/-- Token cost the management loop attributes to one history entry:
`get_token_count(msg["source"]) + get_token_count(msg["translation"])`. -/
def msg_cost (tok : String → Nat) (m : HistoryEntry) : Nat :=
  tok m.source + tok m.translation

/-- Total entry cost of a history slice. -/
def sum_tokens (tok : String → Nat) (l : List HistoryEntry) : Nat :=
  (l.map (msg_cost tok)).sum

/-- The backward scan of `_manage_context_size`, phrased over the reversed
history (newest first): keep an entry while `total + msg_tokens < max_tokens`
accumulating, and on the first failure drop it together with everything
older (the `self.messages = self.messages[i + 1:]` / `break`). -/
def trim_back (tok : String → Nat) (mt : Nat) :
    Nat → List HistoryEntry → List HistoryEntry
  | _, [] => []
  | total, m :: rest =>
    if total + msg_cost tok m < mt then
      m :: trim_back tok mt (total + msg_cost tok m) rest
    else []

/-- The token-based trimming step of `_manage_context_size` on the history
in its stored (oldest-first) order. -/
def token_trim (tok : String → Nat) (mt sys : Nat) (msgs : List HistoryEntry) :
    List HistoryEntry :=
  (trim_back tok mt sys msgs.reverse).reverse

/-- Embedding of `_manage_context_size`: the count cap fires first and
returns; otherwise the token scan runs on top of the system-message count. -/
def manage_context_size (tok : String → Nat) (ctx : TranslationContext) :
    TranslationContext :=
  if 0 < ctx.max_messages ∧ ctx.max_messages < ctx.messages.length then
    { ctx with
      messages := ctx.messages.drop (ctx.messages.length - ctx.max_messages) }
  else
    { ctx with
      messages :=
        token_trim tok ctx.max_tokens (tok (build_system_message ctx))
          ctx.messages }

/-- Embedding of `add_translation`: append the entry, then manage size. -/
def add_translation (tok : String → Nat) (source_text translated_text : String)
    (ctx : TranslationContext) : TranslationContext :=
  manage_context_size tok
    { ctx with
      messages := ctx.messages ++ [⟨source_text, translated_text⟩] }

/-- A role-tagged chat message as sent to the completion API. -/
structure ApiMessage where
  role : String
  content : String
deriving DecidableEq

/-- Embedding of `get_context_for_api`: the system message followed by a
user/assistant pair per history entry. -/
def get_context_for_api (ctx : TranslationContext) : List ApiMessage :=
  ⟨"system", build_system_message ctx⟩ ::
    ctx.messages.foldr
      (fun m acc => ⟨"user", m.source⟩ :: ⟨"assistant", m.translation⟩ :: acc)
      []

/-- Token count of the fully rendered context: the system message plus each
surviving history entry, accounted exactly as `_manage_context_size` does. -/
def rendered_token_total (tok : String → Nat) (ctx : TranslationContext) : Nat :=
  tok (build_system_message ctx) + sum_tokens tok ctx.messages

/-! ### Session store (`storage.py`) -/

/-- The persisted per-session record (`{systemPrompt, references,
translations}`). -/
structure SessionRecord where
  systemPrompt : String
  references : List String
  translations : List HistoryEntry
deriving DecidableEq

/-- The empty-defaults record returned for a missing session file. -/
def empty_record : SessionRecord :=
  { systemPrompt := "", references := [], translations := [] }

/-- Embedding of `StorageManager.load_session`.  The argument models the
session file: `none` when the file does not exist, and otherwise the outcome
of `json.load` on its contents (`Except.error` when the parse raises). -/
def load_session (file : Option (Except String SessionRecord)) :
    Except String SessionRecord :=
  match file with
  | none => Except.ok empty_record
  | some parsed => parsed

/-! ### Translate flow (`api/translation_api.py`, `app.py`) -/

/-- Embedding of `TranslationAPI.translate_text`.  The argument models the
HTTP call's outcome: `Except.error (status, body)` for a non-success
response, which the Python code turns into the raised
`Exception(f"API error: {status_code} - {text}")`. -/
def translate_text (outcome : Except (Nat × String) String) :
    Except String String :=
  match outcome with
  | Except.error e =>
    Except.error ("API error: " ++ toString e.1 ++ " - " ++ e.2)
  | Except.ok reply => Except.ok reply

/-- Per-session slice of the app's state: `session` models
`sessions.get(session_id)` and `stored` the persisted record this session's
file currently parses to. -/
structure AppState where
  session : Option TranslationContext
  stored : SessionRecord
deriving DecidableEq

/-- Hydration of a fresh context from a saved record, as done inline in
`app.py`'s `translate` when the session id is not yet in `sessions`:
the prompt is set only when truthy, references are re-added one by one, and
every saved translation is replayed through `add_translation`. -/
def hydrate (tok : String → Nat) (mm mt : Nat) (rec : SessionRecord) :
    TranslationContext :=
  let c0 := TranslationContext.new mm mt
  let c1 := if rec.systemPrompt = "" then c0
            else set_system_prompt rec.systemPrompt c0
  let c2 := rec.references.foldl (fun c r => add_reference r c) c1
  rec.translations.foldl (fun c t => add_translation tok t.source t.translation c) c2

/-- The context `translate` operates on: the existing one, or a freshly
hydrated one when the session id is new. -/
def contextOf (tok : String → Nat) (mm mt : Nat) (st : AppState) :
    TranslationContext :=
  match st.session with
  | some c => c
  | none => hydrate tok mm mt st.stored

/-- Embedding of the `/api/translate` handler body for one session: reject
empty text before touching any state, hydrate the context if needed, call
the completion API on the rendered messages plus the pending user turn, and
on success record the exchange in both the context and the stored record
(the stored record gets a plain append). -/
def translate (tok : String → Nat) (mm mt : Nat)
    (api : List ApiMessage → Except (Nat × String) String)
    (source_text : String) (st : AppState) :
    Except String String × AppState :=
  if source_text = "" then (Except.error "No text provided", st)
  else
    match translate_text
        (api (get_context_for_api (contextOf tok mm mt st) ++
          [⟨"user", source_text⟩])) with
    | Except.error e =>
      (Except.error e, { st with session := some (contextOf tok mm mt st) })
    | Except.ok reply =>
      (Except.ok reply,
        { session :=
            some (add_translation tok source_text reply (contextOf tok mm mt st)),
          stored :=
            { st.stored with
              translations :=
                st.stored.translations ++ [⟨source_text, reply⟩] } })

/-- Embedding of the `/api/system-prompt` handler for one session: a missing
context is created fresh (NOT hydrated from storage), the prompt is set on
it, and the stored record's `systemPrompt` field is overwritten. -/
def update_system_prompt_handler (mm mt : Nat) (prompt : String)
    (st : AppState) : AppState :=
  let ctx := match st.session with
    | some c => c
    | none => TranslationContext.new mm mt
  { session := some (set_system_prompt prompt ctx),
    stored := { st.stored with systemPrompt := prompt } }

/-- Embedding of the `/api/references` handler for one session: clear then
re-add each reference on the context, and overwrite the stored record's
`references` field. -/
def update_references_handler (mm mt : Nat) (references : List String)
    (st : AppState) : AppState :=
  let ctx := match st.session with
    | some c => c
    | none => TranslationContext.new mm mt
  { session :=
      some (references.foldl (fun c r => add_reference r c)
        (clear_references ctx)),
    stored := { st.stored with references := references } }

/-! ### Spec-side formulations (for the refinement claims) -/

/-- Modelled from the spec (§4.2.1 token-based cap): truncate the history to
exactly the longest strictly-newer suffix whose entry costs on top of the
system-message count stay strictly below `maxTokens`; if the whole history
fits, it is unchanged. -/
def spec_token_trim (tok : String → Nat) (mt sys : Nat)
    (msgs : List HistoryEntry) : List HistoryEntry :=
  msgs.drop (msgs.length -
    Nat.findGreatest
      (fun k => sys + sum_tokens tok (msgs.drop (msgs.length - k)) < mt)
      msgs.length)

/-- Write-through relation between one session's in-memory context and its
persisted record: whenever the context exists, its history is a contiguous
suffix of the persisted translation log. -/
def history_suffix_inv (st : AppState) : Prop :=
  ∀ c, st.session = some c → c.messages <:+ st.stored.translations

/-- Modelled from the spec (§4.2.2): one reference block, 1-indexed. -/
def spec_reference_block (i : Nat) (ref : String) : String :=
  "\n--- Reference " ++ toString i ++ " ---\n" ++ ref ++ "\n"

/-- Concatenation of the indexed reference blocks. -/
def spec_blocks : List (Nat × String) → String
  | [] => ""
  | p :: ps => spec_reference_block p.1 p.2 ++ spec_blocks ps

/-- Modelled from the spec (§4.2.2): rendered system content is the prompt
(default when empty), and when references exist, the literal header followed
by the 1-indexed blocks in insertion order. -/
def spec_system_message (prompt : String) (refs : List String) : String :=
  (if prompt = "" then default_system_prompt else prompt) ++
    (if refs = [] then ""
     else "\n\nReference materials:\n" ++ spec_blocks (List.enumFrom 1 refs))

/-! ### Concrete instances used by witnesses and counterexamples -/

/-- A token counter that charges nothing (isolates count-based behaviour). -/
def tok_zero : String → Nat := fun _ => 0

/-- A completion API stub that always succeeds with the reply "X". -/
def api_ok_x : List ApiMessage → Except (Nat × String) String :=
  fun _ => Except.ok "X"

/-- A completion API stub that always fails with status 500 and body "boom". -/
def api_fail : List ApiMessage → Except (Nat × String) String :=
  fun _ => Except.error (500, "boom")

/-- A fresh per-session app state: no in-memory context, empty record. -/
def fresh_state : AppState := { session := none, stored := empty_record }

/-- App state after translating "a" in a session with `maxMessages = 1`. -/
def run_state_1 : AppState := (translate tok_zero 1 8000 api_ok_x "a" fresh_state).2

/-- App state after then translating "b" in the same session. -/
def run_state_2 : AppState := (translate tok_zero 1 8000 api_ok_x "b" run_state_1).2

/-- A context with no count cap and a roomy token budget. -/
def wit_ctx_a : TranslationContext :=
  { messages := [], max_messages := 0, max_tokens := 200,
    system_prompt := "", references := [] }

/-- A context with one prior exchange, no count cap, budget 50 tokens. -/
def wit_ctx_b : TranslationContext :=
  { messages := [⟨"hi", "yo"⟩], max_messages := 0, max_tokens := 50,
    system_prompt := "p", references := [] }

/-- A context whose token budget (2) is below a single small entry's cost. -/
def wit_ctx_c : TranslationContext :=
  { messages := [], max_messages := 0, max_tokens := 2,
    system_prompt := "", references := [] }

/-- A `maxMessages = 2` context holding exchanges A and B. -/
def wit_ctx_d : TranslationContext :=
  add_translation tok_zero "B" "b"
    (add_translation tok_zero "A" "a" (TranslationContext.new 2 8000))

/-- A state whose session context already exists in memory. -/
def wit_state : AppState :=
  { session := some (TranslationContext.new 0 8000), stored := empty_record }

/-- An encoding registry with no scheme for any model identifier. -/
def efm_none : String → Option (String → Nat) := fun _ => none

/-! ### Helper lemmas -/

theorem messages_set_system_prompt (p : String) (ctx : TranslationContext) :
    (set_system_prompt p ctx).messages = ctx.messages := rfl

theorem messages_add_reference (r : String) (ctx : TranslationContext) :
    (add_reference r ctx).messages = ctx.messages := rfl

theorem messages_clear_references (ctx : TranslationContext) :
    (clear_references ctx).messages = ctx.messages := rfl

theorem messages_fold_add_reference (rs : List String) :
    ∀ c : TranslationContext,
      (rs.foldl (fun c r => add_reference r c) c).messages = c.messages := by
  induction rs with
  | nil => intro c; rfl
  | cons r rs ih => intro c; simp only [List.foldl_cons]; exact ih _

theorem sum_tokens_nil (tok : String → Nat) : sum_tokens tok [] = 0 := rfl

theorem sum_tokens_cons (tok : String → Nat) (m : HistoryEntry)
    (l : List HistoryEntry) :
    sum_tokens tok (m :: l) = msg_cost tok m + sum_tokens tok l := by
  simp [sum_tokens]

theorem sum_tokens_reverse (tok : String → Nat) (l : List HistoryEntry) :
    sum_tokens tok l.reverse = sum_tokens tok l := by
  simp [sum_tokens, List.map_reverse, List.sum_reverse]

theorem sum_tokens_drop_le (tok : String → Nat) :
    ∀ (n : Nat) (l : List HistoryEntry),
      sum_tokens tok (l.drop n) ≤ sum_tokens tok l := by
  intro n
  induction n with
  | zero => intro l; simp
  | succ k ih =>
    intro l
    cases l with
    | nil => simp
    | cons m rest =>
      calc sum_tokens tok ((m :: rest).drop (k + 1))
          = sum_tokens tok (rest.drop k) := rfl
        _ ≤ sum_tokens tok rest := ih rest
        _ ≤ msg_cost tok m + sum_tokens tok rest := Nat.le_add_left _ _
        _ = sum_tokens tok (m :: rest) := (sum_tokens_cons tok m rest).symm

theorem sum_tokens_drop_antitone (tok : String → Nat) (l : List HistoryEntry)
    {i j : Nat} (h : i ≤ j) :
    sum_tokens tok (l.drop j) ≤ sum_tokens tok (l.drop i) := by
  have : l.drop j = (l.drop i).drop (j - i) := by
    rw [List.drop_drop]
    congr 1
    omega
  rw [this]
  exact sum_tokens_drop_le tok _ _

theorem trim_back_pre (tok : String → Nat) (mt : Nat) :
    ∀ (l : List HistoryEntry) (total : Nat), trim_back tok mt total l <+: l := by
  intro l
  induction l with
  | nil => intro total; exact ⟨[], rfl⟩
  | cons m rest ih =>
    intro total
    simp only [trim_back]
    by_cases h : total + msg_cost tok m < mt
    · rw [if_pos h]
      obtain ⟨t, ht⟩ := ih (total + msg_cost tok m)
      exact ⟨t, by simp [ht]⟩
    · rw [if_neg h]
      exact ⟨m :: rest, rfl⟩

theorem pre_len_le {α : Type} {p l : List α} (h : p <+: l) :
    p.length ≤ l.length := by
  obtain ⟨t, ht⟩ := h
  subst ht
  simp

theorem rev_pre_suffix {α : Type} {p l : List α} (h : p <+: l.reverse) :
    p.reverse <:+ l := by
  obtain ⟨t, ht⟩ := h
  refine ⟨t.reverse, ?_⟩
  have := congrArg List.reverse ht
  rw [List.reverse_append, List.reverse_reverse] at this
  exact this

theorem suffix_eq_drop {α : Type} {s l : List α} (h : s <:+ l) :
    s = l.drop (l.length - s.length) := by
  obtain ⟨t, ht⟩ := h
  subst ht
  have hlen : (t ++ s).length - s.length = t.length := by
    simp
  rw [hlen, List.drop_left]

theorem token_trim_suffix (tok : String → Nat) (mt sys : Nat)
    (msgs : List HistoryEntry) : token_trim tok mt sys msgs <:+ msgs :=
  rev_pre_suffix (trim_back_pre tok mt msgs.reverse sys)

theorem suffix_append_single {α : Type} {a b : List α} (x : α)
    (h : a <:+ b) : a ++ [x] <:+ b ++ [x] := by
  obtain ⟨t, ht⟩ := h
  exact ⟨t, by rw [← List.append_assoc, ht]⟩

theorem trim_back_total (tok : String → Nat) (mt : Nat) :
    ∀ (l : List HistoryEntry) (total : Nat), total < mt →
      total + sum_tokens tok (trim_back tok mt total l) < mt := by
  intro l
  induction l with
  | nil => intro total h; simpa [trim_back, sum_tokens_nil] using h
  | cons m rest ih =>
    intro total h
    simp only [trim_back]
    by_cases hc : total + msg_cost tok m < mt
    · rw [if_pos hc, sum_tokens_cons]
      have := ih (total + msg_cost tok m) hc
      omega
    · rw [if_neg hc]
      simpa [sum_tokens_nil] using h

theorem trim_back_all (tok : String → Nat) (mt : Nat) :
    ∀ (l : List HistoryEntry) (total : Nat),
      total + sum_tokens tok l < mt → trim_back tok mt total l = l := by
  intro l
  induction l with
  | nil => intro total _; rfl
  | cons m rest ih =>
    intro total h
    rw [sum_tokens_cons] at h
    have hc : total + msg_cost tok m < mt := by omega
    simp only [trim_back, if_pos hc]
    rw [ih (total + msg_cost tok m) (by omega)]

theorem trim_back_pos (tok : String → Nat) (mt : Nat)
    (l : List HistoryEntry) (total : Nat)
    (h : trim_back tok mt total l ≠ []) : total < mt := by
  cases l with
  | nil => simp [trim_back] at h
  | cons m rest =>
    by_cases hc : total + msg_cost tok m < mt
    · omega
    · simp only [trim_back, if_neg hc] at h
      exact absurd rfl h

theorem trim_back_break (tok : String → Nat) (mt : Nat) :
    ∀ (l : List HistoryEntry) (total : Nat),
      (trim_back tok mt total l).length < l.length →
      mt ≤ total + sum_tokens tok (trim_back tok mt total l) +
        msg_cost tok (l.getD (trim_back tok mt total l).length ⟨"", ""⟩) := by
  intro l
  induction l with
  | nil => intro total h; simp at h
  | cons m rest ih =>
    intro total h
    by_cases hc : total + msg_cost tok m < mt
    · simp only [trim_back, if_pos hc] at h ⊢
      simp only [List.length_cons, Nat.add_lt_add_iff_right] at h
      have := ih (total + msg_cost tok m) h
      rw [sum_tokens_cons]
      simp only [List.length_cons, List.getD_cons_succ]
      omega
    · simp only [trim_back, if_neg hc]
      simp only [List.length_nil, List.getD_cons_zero, sum_tokens_nil]
      omega

theorem rev_getD (l : List HistoryEntry) (K : Nat) (hK : K < l.length) :
    l.reverse.getD K ⟨"", ""⟩ = l.getD (l.length - K - 1) ⟨"", ""⟩ := by
  have h1 : K < l.reverse.length := by simpa using hK
  have h2 : l.length - K - 1 < l.length := by omega
  rw [List.getD_eq_getElem _ _ h1, List.getD_eq_getElem _ _ h2,
    List.getElem_reverse]
  simp only [show l.length - 1 - K = l.length - K - 1 from by omega]

/-- The backward token scan of `_manage_context_size` computes exactly the
spec's cut: keep the longest strictly-newer suffix that still fits. -/
theorem token_trim_eq_spec (tok : String → Nat) (mt sys : Nat)
    (l : List HistoryEntry) :
    token_trim tok mt sys l = spec_token_trim tok mt sys l := by
  show (trim_back tok mt sys l.reverse).reverse
      = l.drop (l.length - Nat.findGreatest
          (fun k => sys + sum_tokens tok (l.drop (l.length - k)) < mt)
          l.length)
  set p := trim_back tok mt sys l.reverse with hp
  have hpre : p <+: l.reverse := by rw [hp]; exact trim_back_pre tok mt l.reverse sys
  have hKle : p.length ≤ l.length := by simpa using pre_len_le hpre
  have hsuf : p.reverse <:+ l := rev_pre_suffix hpre
  have hkept : p.reverse = l.drop (l.length - p.length) := by
    have h := suffix_eq_drop hsuf
    simpa [List.length_reverse] using h
  have hsum : sum_tokens tok (l.drop (l.length - p.length)) = sum_tokens tok p := by
    rw [← hkept, sum_tokens_reverse]
  have hfg : Nat.findGreatest
      (fun k => sys + sum_tokens tok (l.drop (l.length - k)) < mt) l.length
      = p.length := by
    rw [Nat.findGreatest_eq_iff]
    refine ⟨hKle, ?_, ?_⟩
    · intro hK0
      show sys + sum_tokens tok (l.drop (l.length - p.length)) < mt
      have hpne : p ≠ [] := fun h => hK0 (by rw [h]; rfl)
      have hsys : sys < mt := by
        rw [hp] at hpne
        exact trim_back_pos tok mt l.reverse sys hpne
      rw [hsum, hp]
      exact trim_back_total tok mt l.reverse sys hsys
    · intro j hKj hjn hfitj
      have hfit : sys + sum_tokens tok (l.drop (l.length - j)) < mt := hfitj
      have hKn : p.length < l.length := Nat.lt_of_lt_of_le hKj hjn
      have hlenrev : (trim_back tok mt sys l.reverse).length < l.reverse.length := by
        rw [← hp, List.length_reverse]; exact hKn
      have hbreak := trim_back_break tok mt l.reverse sys hlenrev
      rw [← hp] at hbreak
      rw [rev_getD l p.length hKn] at hbreak
      have hidx : l.length - p.length - 1 < l.length := by omega
      have hsum2 : sum_tokens tok (l.drop (l.length - p.length - 1))
          = msg_cost tok (l.getD (l.length - p.length - 1) ⟨"", ""⟩)
            + sum_tokens tok (l.drop (l.length - p.length)) := by
        rw [List.drop_eq_getElem_cons hidx, List.getD_eq_getElem _ _ hidx,
          show l.length - p.length - 1 + 1 = l.length - p.length from by omega,
          sum_tokens_cons]
      have hmono : sum_tokens tok (l.drop (l.length - p.length - 1))
          ≤ sum_tokens tok (l.drop (l.length - j)) :=
        sum_tokens_drop_antitone tok l (by omega)
      omega
  rw [hfg]
  exact hkept

theorem manage_suffix (tok : String → Nat) (ctx : TranslationContext) :
    (manage_context_size tok ctx).messages <:+ ctx.messages := by
  by_cases h : 0 < ctx.max_messages ∧ ctx.max_messages < ctx.messages.length
  · simp only [manage_context_size, if_pos h]
    exact ⟨ctx.messages.take (ctx.messages.length - ctx.max_messages),
      List.take_append_drop _ _⟩
  · simp only [manage_context_size, if_neg h]
    exact token_trim_suffix tok ctx.max_tokens _ ctx.messages

theorem add_translation_suffix (tok : String → Nat) (s t : String)
    (ctx : TranslationContext) :
    (add_translation tok s t ctx).messages <:+ ctx.messages ++ [⟨s, t⟩] := by
  have h := manage_suffix tok { ctx with messages := ctx.messages ++ [⟨s, t⟩] }
  simpa [add_translation] using h

theorem fold_add_translation_suffix (tok : String → Nat) :
    ∀ (l : List HistoryEntry) (c : TranslationContext) (s : List HistoryEntry),
      c.messages <:+ s →
      (l.foldl (fun c t => add_translation tok t.source t.translation c)
        c).messages <:+ s ++ l := by
  intro l
  induction l with
  | nil => intro c s h; simpa using h
  | cons t ts ih =>
    intro c s h
    simp only [List.foldl_cons]
    have h1 : (add_translation tok t.source t.translation c).messages <:+ s ++ [t] := by
      have h2 := add_translation_suffix tok t.source t.translation c
      have h3 : c.messages ++ [t] <:+ s ++ [t] := suffix_append_single t h
      exact h2.trans h3
    have h4 := ih _ _ h1
    rw [List.append_assoc, List.singleton_append] at h4
    exact h4

theorem hydrate_suffix (tok : String → Nat) (mm mt : Nat) (rec : SessionRecord) :
    (hydrate tok mm mt rec).messages <:+ rec.translations := by
  have key : ∀ c : TranslationContext, c.messages = [] →
      ((rec.translations.foldl
        (fun c t => add_translation tok t.source t.translation c) c).messages)
        <:+ rec.translations := by
    intro c hc
    have h := fold_add_translation_suffix tok rec.translations c []
      (by rw [hc])
    simpa using h
  exact key
    (rec.references.foldl (fun c r => add_reference r c)
      (if rec.systemPrompt = "" then TranslationContext.new mm mt
       else set_system_prompt rec.systemPrompt (TranslationContext.new mm mt)))
    (by
      rw [messages_fold_add_reference]
      by_cases h : rec.systemPrompt = "" <;>
        simp [h, TranslationContext.new, set_system_prompt])

theorem contextOf_suffix (tok : String → Nat) (mm mt : Nat) (st : AppState)
    (h : history_suffix_inv st) :
    (contextOf tok mm mt st).messages <:+ st.stored.translations := by
  unfold contextOf
  cases hs : st.session with
  | some c => exact h c hs
  | none => exact hydrate_suffix tok mm mt st.stored

theorem add_translation_cases (tok : String → Nat) (s t : String)
    (ctx : TranslationContext) :
    (0 < ctx.max_messages ∧
      ctx.max_messages < (ctx.messages ++ [(⟨s, t⟩ : HistoryEntry)]).length ∧
      (add_translation tok s t ctx).messages
        = (ctx.messages ++ [(⟨s, t⟩ : HistoryEntry)]).drop
            ((ctx.messages ++ [(⟨s, t⟩ : HistoryEntry)]).length - ctx.max_messages))
    ∨ ((ctx.max_messages = 0 ∨ (ctx.messages ++ [(⟨s, t⟩ : HistoryEntry)]).length ≤ ctx.max_messages) ∧
      (add_translation tok s t ctx).messages
        = token_trim tok ctx.max_tokens (tok (build_system_message ctx))
            (ctx.messages ++ [(⟨s, t⟩ : HistoryEntry)])) := by
  by_cases h : 0 < ctx.max_messages ∧
      ctx.max_messages < (ctx.messages ++ [(⟨s, t⟩ : HistoryEntry)]).length
  · left
    refine ⟨h.1, h.2, ?_⟩
    simp only [add_translation, manage_context_size, if_pos h]
  · right
    refine ⟨?_, ?_⟩
    · push_neg at h
      omega
    · simp only [add_translation, manage_context_size, if_neg h]
      rfl

theorem add_translation_max_messages (tok : String → Nat) (s t : String)
    (ctx : TranslationContext) :
    (add_translation tok s t ctx).max_messages = ctx.max_messages := by
  unfold add_translation manage_context_size
  split <;> rfl

theorem add_translation_max_tokens (tok : String → Nat) (s t : String)
    (ctx : TranslationContext) :
    (add_translation tok s t ctx).max_tokens = ctx.max_tokens := by
  unfold add_translation manage_context_size
  split <;> rfl

theorem add_translation_build (tok : String → Nat) (s t : String)
    (ctx : TranslationContext) :
    build_system_message (add_translation tok s t ctx) = build_system_message ctx := by
  unfold add_translation manage_context_size
  split <;> rfl

theorem fold_blocks (ps : List (Nat × String)) :
    ∀ b : String,
      ps.foldl
        (fun acc p =>
          acc ++ ("\n--- Reference " ++ toString p.1 ++ " ---\n" ++ p.2 ++ "\n"))
        b
      = b ++ spec_blocks ps := by
  induction ps with
  | nil => intro b; simp [spec_blocks]
  | cons p ps ih =>
    intro b
    simp only [List.foldl_cons, spec_blocks]
    rw [ih, String.append_assoc]
    rfl

/-! ### Claim theorems -/

/-- C1 (counterexample): the claimed invariant — after each `addTranslation`
either `len(history) <= maxMessages` (when `maxMessages > 0`) or the rendered
token total is strictly below `maxTokens` — fails on the code at
`maxMessages = 0`, `maxTokens = 1`, counting tokens by string length: the
system message alone already reaches the budget, so the scan empties the
history yet the rendered total (the system message) still meets `maxTokens`. -/
theorem C1_counterexample :
    ¬ ((0 < (add_translation String.length "a" "b"
            { messages := [], max_messages := 0, max_tokens := 1,
              system_prompt := "", references := [] }).max_messages ∧
        (add_translation String.length "a" "b"
            { messages := [], max_messages := 0, max_tokens := 1,
              system_prompt := "", references := [] }).messages.length ≤
          (add_translation String.length "a" "b"
            { messages := [], max_messages := 0, max_tokens := 1,
              system_prompt := "", references := [] }).max_messages) ∨
      rendered_token_total String.length
          (add_translation String.length "a" "b"
            { messages := [], max_messages := 0, max_tokens := 1,
              system_prompt := "", references := [] }) <
        (add_translation String.length "a" "b"
            { messages := [], max_messages := 0, max_tokens := 1,
              system_prompt := "", references := [] }).max_tokens) := by
  decide

/-- C1 (amended): provided the system message alone renders strictly below
`maxTokens`, then after every `addTranslation` call either
`len(history) <= maxMessages` (when `maxMessages > 0`) or the token count of
the fully rendered context is strictly less than `maxTokens`. -/
theorem C1_amended (tok : String → Nat) (src tr : String)
    (ctx : TranslationContext)
    (h : tok (build_system_message ctx) < ctx.max_tokens) :
    (0 < (add_translation tok src tr ctx).max_messages ∧
      (add_translation tok src tr ctx).messages.length ≤
        (add_translation tok src tr ctx).max_messages) ∨
    rendered_token_total tok (add_translation tok src tr ctx) <
      (add_translation tok src tr ctx).max_tokens := by
  rcases add_translation_cases tok src tr ctx with ⟨h1, h2, heq⟩ | ⟨hor, heq⟩
  · left
    rw [add_translation_max_messages]
    refine ⟨h1, ?_⟩
    rw [heq, List.length_drop]
    omega
  · by_cases hm : 0 < ctx.max_messages
    · left
      rw [add_translation_max_messages]
      refine ⟨hm, ?_⟩
      rw [heq]
      have hlen := (token_trim_suffix tok ctx.max_tokens
        (tok (build_system_message ctx))
        (ctx.messages ++ [⟨src, tr⟩])).length_le
      rcases hor with h0 | hle
      · omega
      · omega
    · right
      rw [add_translation_max_tokens]
      unfold rendered_token_total
      rw [add_translation_build, heq]
      unfold token_trim
      rw [sum_tokens_reverse]
      exact trim_back_total tok ctx.max_tokens _ _ h

/-- C2: when the count-based cap does not fire, `addTranslation`'s size
management is exactly the spec's backward scan-and-cut: the history becomes
the longest strictly-newer suffix whose accumulated entry costs on top of
the system-message count stay below `maxTokens` (the whole history when it
all fits). -/
theorem C2_token_scan (tok : String → Nat) (s t : String)
    (ctx : TranslationContext)
    (h : ctx.max_messages = 0 ∨
      (ctx.messages ++ [(⟨s, t⟩ : HistoryEntry)]).length ≤ ctx.max_messages) :
    (add_translation tok s t ctx).messages
      = spec_token_trim tok ctx.max_tokens (tok (build_system_message ctx))
          (ctx.messages ++ [(⟨s, t⟩ : HistoryEntry)]) := by
  rcases add_translation_cases tok s t ctx with ⟨h1, h2, _⟩ | ⟨_, heq⟩
  · rcases h with h | h <;> omega
  · rw [heq, token_trim_eq_spec]

/-- C4: if the count-based cap does not fire and the just-appended (most
recent) entry's own token cost already meets or exceeds `maxTokens`, the
token scan drops it as well, leaving the history empty. -/
theorem C4_oversized_newest (tok : String → Nat) (s t : String)
    (ctx : TranslationContext)
    (hcap : ctx.max_messages = 0 ∨
      (ctx.messages ++ [(⟨s, t⟩ : HistoryEntry)]).length ≤ ctx.max_messages)
    (hcost : ctx.max_tokens ≤ tok s + tok t) :
    (add_translation tok s t ctx).messages = [] := by
  rcases add_translation_cases tok s t ctx with ⟨h1, h2, _⟩ | ⟨_, heq⟩
  · rcases hcap with h | h <;> omega
  · rw [heq]
    unfold token_trim
    rw [show (ctx.messages ++ [(⟨s, t⟩ : HistoryEntry)]).reverse
        = ⟨s, t⟩ :: ctx.messages.reverse from by simp]
    have hnot : ¬ (tok (build_system_message ctx) +
        msg_cost tok ⟨s, t⟩ < ctx.max_tokens) := by
      show ¬ (tok (build_system_message ctx) + (tok s + tok t) < ctx.max_tokens)
      omega
    simp only [trim_back, if_neg hnot, List.reverse_nil]

/-- C5: whenever `maxMessages > 0` and the history exceeds it after the
append, `addTranslation` truncates the history to exactly its last
`maxMessages` entries — independently of the token counter, i.e. the
token-based check is skipped. -/
theorem C5_count_cap (tok : String → Nat) (s t : String)
    (ctx : TranslationContext)
    (h0 : 0 < ctx.max_messages)
    (h1 : ctx.max_messages < (ctx.messages ++ [(⟨s, t⟩ : HistoryEntry)]).length) :
    (add_translation tok s t ctx).messages
      = (ctx.messages ++ [(⟨s, t⟩ : HistoryEntry)]).drop
          ((ctx.messages ++ [(⟨s, t⟩ : HistoryEntry)]).length - ctx.max_messages)
    ∧ (add_translation tok s t ctx).messages.length = ctx.max_messages := by
  rcases add_translation_cases tok s t ctx with ⟨_, _, heq⟩ | ⟨hor, _⟩
  · refine ⟨heq, ?_⟩
    rw [heq, List.length_drop]
    omega
  · rcases hor with h | h <;> omega

/-- C3 (counterexample): write-through convergence fails — after two
successful translate calls in a session with `maxMessages = 1`, the
persisted record holds both exchanges while the in-memory context was
trimmed to the last one, so record and context do not hold the same
content. -/
theorem C3_counterexample :
    Option.map TranslationContext.messages run_state_2.session
      ≠ some run_state_2.stored.translations := by
  decide

/-- C3 (amended): the persisted record and the in-memory context need not
hold identical content after a translate call, because the store keeps the
full translation log while the context is trimmed.  What converges is
weaker: the in-memory history is always a contiguous suffix of the
persisted log, this relation is preserved by translate (success or failure)
and by both update handlers, and a successful translate appends the new
exchange to the persisted log. -/
theorem C3_amended (tok : String → Nat) (mm mt : Nat)
    (api : List ApiMessage → Except (Nat × String) String)
    (src prompt : String) (refs : List String) (st : AppState)
    (h : history_suffix_inv st) :
    history_suffix_inv (translate tok mm mt api src st).2
    ∧ history_suffix_inv (update_system_prompt_handler mm mt prompt st)
    ∧ history_suffix_inv (update_references_handler mm mt refs st)
    ∧ (∀ reply, src ≠ "" →
        api (get_context_for_api (contextOf tok mm mt st) ++ [⟨"user", src⟩])
          = Except.ok reply →
        (translate tok mm mt api src st).2.stored.translations
          = st.stored.translations ++ [⟨src, reply⟩]) := by
  have hctx := contextOf_suffix tok mm mt st h
  refine ⟨?_, ?_, ?_, ?_⟩
  · unfold translate
    by_cases hsrc : src = ""
    · rw [if_pos hsrc]
      exact h
    · rw [if_neg hsrc]
      cases hapi : api (get_context_for_api (contextOf tok mm mt st) ++
          [⟨"user", src⟩]) with
      | error e =>
        simp only [translate_text]
        intro c hc
        injection hc with hc2
        rw [← hc2]
        exact hctx
      | ok reply =>
        simp only [translate_text]
        intro c hc
        injection hc with hc2
        rw [← hc2]
        exact (add_translation_suffix tok src reply _).trans
          (suffix_append_single _ hctx)
  · intro c hc
    injection hc with hc2
    rw [← hc2, messages_set_system_prompt]
    cases hs : st.session with
    | some c0 =>
      rw [show (update_system_prompt_handler mm mt prompt st).stored.translations
          = st.stored.translations from rfl]
      simp only [hs]
      exact h c0 hs
    | none =>
      simp only [hs]
      exact List.nil_suffix
  · intro c hc
    injection hc with hc2
    rw [← hc2, messages_fold_add_reference, messages_clear_references]
    cases hs : st.session with
    | some c0 =>
      simp only [hs]
      exact h c0 hs
    | none =>
      simp only [hs]
      exact List.nil_suffix
  · intro reply hsrc hok
    unfold translate
    rw [if_neg hsrc, hok]
    simp only [translate_text]

/-- C6: when the Completion Client call fails, translate surfaces one error
value carrying the status and body, the persisted record is untouched, and
an existing in-memory context is left exactly as it was. -/
theorem C6_failure_no_mutation (tok : String → Nat) (mm mt : Nat)
    (api : List ApiMessage → Except (Nat × String) String)
    (status : Nat) (body src : String) (st : AppState)
    (hsrc : src ≠ "")
    (herr : api (get_context_for_api (contextOf tok mm mt st) ++
        [⟨"user", src⟩]) = Except.error (status, body)) :
    (translate tok mm mt api src st).1
        = Except.error ("API error: " ++ toString status ++ " - " ++ body)
    ∧ (translate tok mm mt api src st).2.stored = st.stored
    ∧ ∀ c, st.session = some c →
        (translate tok mm mt api src st).2.session = some c := by
  have hT : translate tok mm mt api src st
      = (Except.error ("API error: " ++ toString status ++ " - " ++ body),
         { st with session := some (contextOf tok mm mt st) }) := by
    unfold translate
    rw [if_neg hsrc, herr]
    simp only [translate_text]
  rw [hT]
  refine ⟨rfl, rfl, ?_⟩
  intro c hc
  simp only [contextOf, hc]

/-- C7 (counterexample): loading a session whose stored file exists but is
malformed is a hard failure — `json.load`'s parse error propagates instead
of the empty-defaults record being returned. -/
theorem C7_counterexample :
    load_session (some (Except.error "Expecting value: line 1 column 1 (char 0)"))
      ≠ Except.ok empty_record := by
  intro hcontra
  exact Except.noConfusion hcontra

/-- C7 (amended): a missing persisted record loads as exactly the
empty-defaults record, but for an existing file `load_session` simply
returns the parse outcome, so a malformed record propagates its error. -/
theorem C7_amended :
    load_session none = Except.ok empty_record
    ∧ ∀ f : Except String SessionRecord, load_session (some f) = f :=
  ⟨rfl, fun _ => rfl⟩

/-- C8: the rendered system message is the stored prompt (or the default
translator instruction when the prompt is empty), followed — exactly when
references exist — by the literal header and the 1-indexed reference blocks
in insertion order. -/
theorem C8_system_message (ctx : TranslationContext) :
    build_system_message ctx
      = spec_system_message ctx.system_prompt ctx.references := by
  unfold build_system_message spec_system_message
  by_cases hr : ctx.references = []
  · simp [hr]
  · simp only [hr, if_neg, ite_false]
    rw [fold_blocks]
    rw [String.append_assoc]

/-- C9: for any text and any model identifier with no registered
tokenization scheme, the token counter does not fail: it falls back to the
fixed default encoding and returns that encoding's count of the text. -/
theorem C9_fallback (encoding_for_model : String → Option (String → Nat))
    (default_encoding : String → Nat) (env_model text m : String)
    (h : encoding_for_model m = none) :
    get_token_count encoding_for_model default_encoding env_model text (some m)
      = default_encoding text := by
  simp [get_token_count, h]

/-- C10: `setSystemPrompt`, `addReference` and `clearReferences` never touch
the history — they leave `messages` unchanged, so only `addTranslation`
(which alone invokes size management) can trim it. -/
theorem C10_frame (ctx : TranslationContext) (p r : String) :
    (set_system_prompt p ctx).messages = ctx.messages
    ∧ (add_reference r ctx).messages = ctx.messages
    ∧ (clear_references ctx).messages = ctx.messages :=
  ⟨rfl, rfl, rfl⟩

/-! ### Witnesses -/

/-- Witness for C1 (amended) at a concrete context. -/
theorem C1_amended_witness :
    String.length (build_system_message wit_ctx_a) < wit_ctx_a.max_tokens
    ∧ ((0 < (add_translation String.length "a" "b" wit_ctx_a).max_messages ∧
        (add_translation String.length "a" "b" wit_ctx_a).messages.length ≤
          (add_translation String.length "a" "b" wit_ctx_a).max_messages) ∨
      rendered_token_total String.length
          (add_translation String.length "a" "b" wit_ctx_a) <
        (add_translation String.length "a" "b" wit_ctx_a).max_tokens) :=
  ⟨by decide, C1_amended String.length "a" "b" wit_ctx_a (by decide)⟩

/-- Witness for C2 at a concrete context. -/
theorem C2_token_scan_witness :
    (wit_ctx_b.max_messages = 0 ∨
      (wit_ctx_b.messages ++ [(⟨"a", "b"⟩ : HistoryEntry)]).length ≤
        wit_ctx_b.max_messages)
    ∧ (add_translation String.length "a" "b" wit_ctx_b).messages
        = spec_token_trim String.length wit_ctx_b.max_tokens
            (String.length (build_system_message wit_ctx_b))
            (wit_ctx_b.messages ++ [(⟨"a", "b"⟩ : HistoryEntry)]) :=
  ⟨Or.inl rfl, C2_token_scan String.length "a" "b" wit_ctx_b (Or.inl rfl)⟩

/-- Witness for C3 (amended) from a fresh session state. -/
theorem C3_amended_witness :
    history_suffix_inv fresh_state
    ∧ (history_suffix_inv (translate tok_zero 1 8000 api_ok_x "a" fresh_state).2
      ∧ history_suffix_inv (update_system_prompt_handler 1 8000 "p" fresh_state)
      ∧ history_suffix_inv (update_references_handler 1 8000 [] fresh_state)
      ∧ (∀ reply, "a" ≠ "" →
          api_ok_x (get_context_for_api (contextOf tok_zero 1 8000 fresh_state)
              ++ [⟨"user", "a"⟩]) = Except.ok reply →
          (translate tok_zero 1 8000 api_ok_x "a" fresh_state).2.stored.translations
            = fresh_state.stored.translations ++ [⟨"a", reply⟩])) :=
  ⟨(fun _ hc => nomatch hc),
   C3_amended tok_zero 1 8000 api_ok_x "a" "p" [] fresh_state
     (fun _ hc => nomatch hc)⟩

/-- Witness for C4 at a concrete context and an oversized entry. -/
theorem C4_oversized_newest_witness :
    (wit_ctx_c.max_messages = 0 ∨
      (wit_ctx_c.messages ++ [(⟨"ab", "cd"⟩ : HistoryEntry)]).length ≤
        wit_ctx_c.max_messages)
    ∧ wit_ctx_c.max_tokens ≤ String.length "ab" + String.length "cd"
    ∧ (add_translation String.length "ab" "cd" wit_ctx_c).messages = [] :=
  ⟨Or.inl rfl, by decide,
   C4_oversized_newest String.length "ab" "cd" wit_ctx_c (Or.inl rfl) (by decide)⟩

/-- Witness for C5: the spec's A, B, C scenario at `maxMessages = 2`,
whose outcome is exactly the history [B, C]. -/
theorem C5_count_cap_witness :
    0 < wit_ctx_d.max_messages
    ∧ wit_ctx_d.max_messages <
        (wit_ctx_d.messages ++ [(⟨"C", "c"⟩ : HistoryEntry)]).length
    ∧ ((add_translation tok_zero "C" "c" wit_ctx_d).messages
        = (wit_ctx_d.messages ++ [(⟨"C", "c"⟩ : HistoryEntry)]).drop
            ((wit_ctx_d.messages ++ [(⟨"C", "c"⟩ : HistoryEntry)]).length -
              wit_ctx_d.max_messages)
      ∧ (add_translation tok_zero "C" "c" wit_ctx_d).messages.length
          = wit_ctx_d.max_messages)
    ∧ (add_translation tok_zero "C" "c" wit_ctx_d).messages
        = [⟨"B", "b"⟩, ⟨"C", "c"⟩] :=
  ⟨by decide, by decide,
   C5_count_cap tok_zero "C" "c" wit_ctx_d (by decide) (by decide),
   by decide⟩

/-- Witness for C6 with an always-failing completion API. -/
theorem C6_failure_no_mutation_witness :
    ("hello" ≠ "")
    ∧ api_fail (get_context_for_api (contextOf tok_zero 0 8000 wit_state)
        ++ [⟨"user", "hello"⟩]) = Except.error (500, "boom")
    ∧ ((translate tok_zero 0 8000 api_fail "hello" wit_state).1
          = Except.error ("API error: " ++ toString 500 ++ " - " ++ "boom")
      ∧ (translate tok_zero 0 8000 api_fail "hello" wit_state).2.stored
          = wit_state.stored
      ∧ ∀ c, wit_state.session = some c →
          (translate tok_zero 0 8000 api_fail "hello" wit_state).2.session
            = some c) :=
  ⟨by decide, rfl,
   C6_failure_no_mutation tok_zero 0 8000 api_fail 500 "boom" "hello" wit_state
     (by decide) rfl⟩

/-- Witness for C9 at a model identifier with no registered scheme. -/
theorem C9_fallback_witness :
    efm_none "mystery-model" = none
    ∧ get_token_count efm_none String.length "gpt-3.5-turbo" "hi"
        (some "mystery-model") = String.length "hi" :=
  ⟨rfl, C9_fallback efm_none String.length "gpt-3.5-turbo" "hi" "mystery-model" rfl⟩

end Novellama
